import Mathlib

/-!
Verification of the CardMath backend (a two-player card arithmetic game server).

The development shallowly embeds the two source files:
* `src/lib/roomManager.js` — the authoritative `RoomManager` class
  (rooms, game states, dealing, selection, answering, round advance, GC);
* `src/index.js` — the socket server layer (auto-next-round timers,
  rematch requests, start/reset handlers).

JavaScript `Map` objects are modelled as insertion-ordered association
lists (`set` overwrites in place, otherwise appends; iteration follows
list order, matching JS `Map` iteration order).  Calls to `Math.random`
are modelled by explicit parameters: generated identifiers are passed in
as arguments, the Fisher–Yates draws are a function `rand : Nat → Nat`
(taken mod the JS bound, mirroring `floor(random * bound)`), the
wrong-answer draws are a list of `(offset draw, sign)` pairs, and the
random `sort` comparator is an arbitrary function assumed (where needed)
to permute its input.
-/

/-- Association list standing for a JS `Map` with string keys. -/
abbrev JsMap (α : Type) := List (String × α)

/-- JS `map.get(k)` (`undefined` becomes `none`). -/
def mapGet {α : Type} (m : JsMap α) (k : String) : Option α :=
  (m.find? (fun p => p.1 == k)).map (fun p => p.2)

/-- JS `map.set(k, v)`: overwrite in place if the key is present, else append. -/
def mapSet {α : Type} (m : JsMap α) (k : String) (v : α) : JsMap α :=
  if m.any (fun p => p.1 == k) then m.map (fun p => if p.1 == k then (k, v) else p)
  else m ++ [(k, v)]

/-- JS `map.delete(k)`. -/
def mapDelete {α : Type} (m : JsMap α) (k : String) : JsMap α :=
  m.filter (fun p => ¬ p.1 == k)

/-- JS `map.has(k)`. -/
def mapHas {α : Type} (m : JsMap α) (k : String) : Bool :=
  m.any (fun p => p.1 == k)

/-- JS `x || y` on optional strings: the empty string is falsy. -/
def jsOrStr (a b : Option String) : Option String :=
  match a with
  | some v => if v = "" then b else some v
  | none => b

/-- JS `x || y` on optional numbers: `0` is falsy. -/
def jsOrNat (a b : Option Nat) : Option Nat :=
  match a with
  | some v => if v = 0 then b else some v
  | none => b

/-- Playing card.  The JS card id is the string `suit-value-counter`;
since suit names contain neither digits nor hyphens that string is in
bijection with the triple `(suit, value, counter)`, which we use as the
id type. -/
structure Card where
  id : String × Nat × Nat
  value : Nat
  suit : String
deriving DecidableEq, Repr

/-- Entry of the authoritative round history
(`{ a, b, correctAnswer, solvedBy, timestamp }`). -/
structure HistEntry where
  a : Option Nat
  b : Option Nat
  correctAnswer : Int
  solvedBy : Option Nat
  timestamp : Nat
deriving DecidableEq, Repr

/-- Authoritative per-room game state built by `initGameState`.
`submittedAnswers` is a two-key JS object `{1: …, 2: …}`; it is modelled
by the two fields `submittedAnswers1`/`submittedAnswers2`. -/
structure GameState where
  difficulty : String
  initialCards : Nat
  player1Hand : List Card
  player2Hand : List Card
  player1SelectedCard : Option Card
  player2SelectedCard : Option Card
  submittedAnswers1 : Option Int
  submittedAnswers2 : Option Int
  player1Answered : Bool
  player2Answered : Bool
  player1Score : Nat
  player2Score : Nat
  currentProblem : Option (Nat × Nat)
  answerOptions : List Int
  correctAnswer : Int
  gameOver : Bool
  winner : Option String
  problemSolved : Bool
  solvedBy : Option Nat
  roundInProgress : Bool
  playersConnected : Nat
  revealEquation : Bool
  history : List HistEntry
  dealComplete : Bool
  advanceClients : Bool
deriving DecidableEq, Repr

/-- Player record held in a room's `players` map. -/
structure Player where
  playerId : String
  playerNumber : Nat
  socketId : String
  status : String
deriving DecidableEq, Repr

/-- Room record.  Fields that the JS code only creates later
(`difficulty`, `initialCards`, `lastEmptyAt`, `transitioning`) start out
as `none`/`false` (JS `undefined` is falsy).  The cosmetic `options`
field (a copy of `difficulty`/`initialCards` for REST summaries) is not
modelled. -/
structure Room where
  roomId : String
  name : String
  players : JsMap Player
  createdAt : Nat
  lastActivity : Nat
  difficulty : Option String
  initialCards : Option Nat
  lastEmptyAt : Option Nat
  transitioning : Bool
deriving DecidableEq, Repr

/-- The `RoomManager` instance state: `this.rooms` and `this.gameStates`. -/
structure RMState where
  rooms : JsMap Room
  gameStates : JsMap GameState
deriving DecidableEq, Repr

/-- `this.roomTTLMs = 10 * 60 * 1000`. -/
def roomTTLMs : Nat := 10 * 60 * 1000

/-- The four suits. -/
def suits : List String := ["hearts", "diamonds", "clubs", "spades"]

/-- The 44-card deck built by `initGameState`: values 2..12 for each of
the 4 suits, with a running id counter. -/
def allCards : List Card :=
  (List.range 4).flatMap (fun s =>
    (List.range 11).map (fun k =>
      { id := (suits.getD s "", k + 2, 11 * s + k), value := k + 2, suit := suits.getD s "" }))

/-- JS array destructuring swap `[a[i], a[j]] = [a[j], a[i]]`.  Both
indices are in range everywhere the code calls it; out of range the
model leaves the list unchanged. -/
def swapCards {α : Type} (l : List α) (i j : Nat) : List α :=
  match l.get? i, l.get? j with
  | some a, some b => (l.set i b).set j a
  | _, _ => l

/-- Fisher–Yates loop body, iterating `i` downwards; the random index is
`j = floor(random * (i + 1))`, modelled as `rand i % (i + 1)`. -/
def fyAux {α : Type} (rand : Nat → Nat) : List α → Nat → List α
  | l, 0 => l
  | l, i + 1 => fyAux rand (swapCards l (i + 1) (rand (i + 1) % (i + 2))) i

/-- The in-place shuffle of `initGameState` (`for (i = len-1; i > 0; i--)`). -/
def fyShuffle {α : Type} (rand : Nat → Nat) (l : List α) : List α :=
  fyAux rand l (l.length - 1)

/-- Options argument of `initGameState`. -/
structure GameOptions where
  difficulty : Option String
  initialCards : Option Nat
deriving DecidableEq, Repr

/-- `difficultyDefaults[d]` (`{ test: 1, easy: 6, medium: 18, hard: 24 }`). -/
def difficultyDefaults (d : String) : Option Nat :=
  if d = "test" then some 1
  else if d = "easy" then some 6
  else if d = "medium" then some 18
  else if d = "hard" then some 24
  else none

/-- `options.difficulty || room.difficulty || 'easy'`. -/
def effDifficulty (opts : GameOptions) (room : Room) : String :=
  (jsOrStr opts.difficulty (jsOrStr room.difficulty (some "easy"))).getD "easy"

/-- `options.initialCards || room.initialCards || difficultyDefaults[difficulty] || 6`. -/
def effInitialCards (opts : GameOptions) (room : Room) : Nat :=
  (jsOrNat opts.initialCards
    (jsOrNat room.initialCards
      (jsOrNat (difficultyDefaults (effDifficulty opts room)) (some 6)))).getD 6

/-- `room ? room.players.size : 0`, used to refresh `playersConnected`. -/
def playersConnectedOf (s : RMState) (roomId : String) : Nat :=
  match mapGet s.rooms roomId with
  | some r => r.players.length
  | none => 0

/-- `createRoom(socketId)`.  The randomly generated room id, room name
and player id are passed in as parameters.  `rooms.set` overwrites on an
id collision, exactly as in the source. -/
def createRoom (s : RMState) (roomId roomName playerId socketId : String) (now : Nat) :
    RMState :=
  let player : Player := { playerId := playerId, playerNumber := 1, socketId := socketId,
                           status := "lobby" }
  let room : Room := { roomId := roomId, name := roomName, players := [(socketId, player)],
                       createdAt := now, lastActivity := now, difficulty := none,
                       initialCards := none, lastEmptyAt := none, transitioning := false }
  { s with rooms := mapSet s.rooms roomId room }

/-- `joinRoom(roomId, socketId)`.  On `Room not found` or `Room is full`
only an error acknowledgement is produced, the state is unchanged; the
model returns the state (the error branches return it untouched). -/
def joinRoom (s : RMState) (roomId playerId socketId : String) (now : Nat) : RMState :=
  match mapGet s.rooms roomId with
  | none => s
  | some room =>
    if 2 ≤ room.players.length then s
    else
      let player : Player := { playerId := playerId, playerNumber := 2, socketId := socketId,
                               status := "lobby" }
      let room1 := { room with players := mapSet room.players socketId player,
                               lastActivity := now }
      { s with rooms := mapSet s.rooms roomId room1 }

/-- Fields of a fresh `GameState` as assembled in `initGameState`. -/
def freshGameState (difficulty : String) (initialCards : Nat)
    (player1Hand player2Hand : List Card) (playersConnected : Nat) : GameState :=
  { difficulty := difficulty, initialCards := initialCards,
    player1Hand := player1Hand, player2Hand := player2Hand,
    player1SelectedCard := none, player2SelectedCard := none,
    submittedAnswers1 := none, submittedAnswers2 := none,
    player1Answered := false, player2Answered := false,
    player1Score := 0, player2Score := 0,
    currentProblem := none, answerOptions := [], correctAnswer := 0,
    gameOver := false, winner := none, problemSolved := false, solvedBy := none,
    roundInProgress := false, playersConnected := playersConnected,
    revealEquation := false, history := [], dealComplete := false, advanceClients := false }

/-- `initGameState(roomId, options)`: parse options, persist them on the
room, build and shuffle the 44-card deck, `splice` off the two hands,
mark all players `in-game`, store the state. -/
def initGameState (s : RMState) (roomId : String) (opts : GameOptions) (rand : Nat → Nat) :
    Option GameState × RMState :=
  match mapGet s.rooms roomId with
  | none => (none, s)
  | some room =>
    let difficulty := effDifficulty opts room
    let initialCards := effInitialCards opts room
    let room1 := { room with difficulty := some difficulty, initialCards := some initialCards }
    let shuffled := fyShuffle rand allCards
    let player1Hand := shuffled.take initialCards
    let player2Hand := (shuffled.drop initialCards).take initialCards
    let state := freshGameState difficulty initialCards player1Hand player2Hand
      room1.players.length
    let inGamePlayers := room1.players.map (fun q => (q.1, { q.2 with status := "in-game" }))
    let room2 := { room1 with players := inGamePlayers }
    (some state,
      { s with rooms := mapSet s.rooms roomId room2,
               gameStates := mapSet s.gameStates roomId state })

/-- `getGameState(roomId)`. -/
def getGameState (s : RMState) (roomId : String) : Option GameState :=
  mapGet s.gameStates roomId

/-- Randomness consumed by the answer-option generator of
`playerSelectCard`: the stream of `(offset draw, sign)` pairs for the
wrong-answer loop, and the order-randomizing `sort` comparator modelled
as a rearrangement function. -/
structure SelectRng where
  draws : List (Nat × Bool)
  shuffle : List Int → List Int

/-- One wrong option: `offset = floor(random * 20) + 1`, added or
subtracted, clamped by `Math.max(1, wrong)`. -/
def genWrongValue (correctAnswer : Int) (d : Nat × Bool) : Int :=
  let offset : Int := (d.1 % 20 : Nat) + 1
  max 1 (if d.2 then correctAnswer + offset else correctAnswer - offset)

/-- The `while (opts.size < 4)` loop over a JS `Set` (insertion-ordered,
deduplicating).  The JS loop draws until 4 distinct values exist; the
model walks the supplied draw stream, so exhausting the stream stands
for the (probability-zero) divergence of the JS loop. -/
def buildOptsAux (correctAnswer : Int) : List (Nat × Bool) → List Int → List Int
  | [], acc => acc
  | d :: ds, acc =>
    if 4 ≤ acc.length then acc
    else if genWrongValue correctAnswer d ∈ acc then buildOptsAux correctAnswer ds acc
    else buildOptsAux correctAnswer ds (acc ++ [genWrongValue correctAnswer d])

/-- `answerOptions` before the final order randomization:
`opts.add(correctAnswer)` then the wrong-answer loop. -/
def buildAnswerOptions (correctAnswer : Int) (draws : List (Nat × Bool)) : List Int :=
  buildOptsAux correctAnswer draws [correctAnswer]

/-- Problem fields set by `playerSelectCard` once both cards are selected. -/
def computeProblem (state : GameState) (c1 c2 : Card) (rng : SelectRng) : GameState :=
  let a := c1.value
  let b := c2.value
  let correctAnswer : Int := (a : Int) * (b : Int)
  let answerOptions := rng.shuffle (buildAnswerOptions correctAnswer rng.draws)
  { state with currentProblem := some (a, b), correctAnswer := correctAnswer,
               answerOptions := answerOptions, roundInProgress := true,
               problemSolved := false, solvedBy := none,
               player1Answered := false, player2Answered := false,
               submittedAnswers1 := none, submittedAnswers2 := none,
               revealEquation := true }

/-- `playerSelectCard(roomId, playerNumber, card)`.  Refreshes
`playersConnected`, bails out (returning the current state) while the
room is `transitioning`, resolves the card id against the authoritative
hand (`find` yields `null` when absent), and generates the problem when
both players have a selection.  The returned state is also the state
stored in `gameStates` (the JS code mutates the stored object). -/
def playerSelectCard (s : RMState) (roomId : String) (playerNumber : Nat)
    (cardId : String × Nat × Nat) (rng : SelectRng) : Option GameState × RMState :=
  match mapGet s.gameStates roomId with
  | none => (none, s)
  | some state0 =>
    let state1 := { state0 with playersConnected := playersConnectedOf s roomId }
    if (match mapGet s.rooms roomId with | some r => r.transitioning | none => false) then
      (some state1, { s with gameStates := mapSet s.gameStates roomId state1 })
    else
      let state2 :=
        if playerNumber = 1 then
          { state1 with player1SelectedCard := state1.player1Hand.find? (fun c => c.id = cardId) }
        else
          { state1 with player2SelectedCard := state1.player2Hand.find? (fun c => c.id = cardId) }
      let state3 :=
        match state2.player1SelectedCard, state2.player2SelectedCard with
        | some c1, some c2 => computeProblem state2 c1 c2 rng
        | _, _ => { state2 with revealEquation := false }
      (some state3, { s with gameStates := mapSet s.gameStates roomId state3 })

/-- History entry pushed by `playerSubmitAnswer`
(`a: currentProblem && currentProblem.a`, etc.). -/
def histEntryOf (state : GameState) (solver : Option Nat) (now : Nat) : HistEntry :=
  { a := state.currentProblem.map (fun p => p.1),
    b := state.currentProblem.map (fun p => p.2),
    correctAnswer := state.correctAnswer, solvedBy := solver, timestamp := now }

/-- `playerSubmitAnswer(roomId, playerNumber, answer)`.  The early guard
returns the bare state (modelled as `(state, none)`); the normal paths
return `{ state, isCorrect }` (modelled as `(state, some isCorrect)`).
The stored state in `gameStates` is updated alongside (JS mutates the
stored object). -/
def playerSubmitAnswer (s : RMState) (roomId : String) (playerNumber : Nat)
    (answer : Int) (now : Nat) : Option (GameState × Option Bool) × RMState :=
  match mapGet s.gameStates roomId with
  | none => (none, s)
  | some state0 =>
    let state1 := { state0 with playersConnected := playersConnectedOf s roomId }
    if !state1.roundInProgress || state1.problemSolved then
      (some (state1, none), { s with gameStates := mapSet s.gameStates roomId state1 })
    else
      let isCorrect := answer = state1.correctAnswer
      let state2 :=
        if playerNumber = 1 then { state1 with player1Answered := true }
        else { state1 with player2Answered := true }
      let state3 :=
        if playerNumber = 1 then { state2 with submittedAnswers1 := some answer }
        else { state2 with submittedAnswers2 := some answer }
      if isCorrect then
        let state4 :=
          if playerNumber = 1 then { state3 with player1Score := state3.player1Score + 1 }
          else { state3 with player2Score := state3.player2Score + 1 }
        let state5 := { state4 with problemSolved := true,
                                    solvedBy := some playerNumber,
                                    history := state4.history ++
                                      [histEntryOf state4 (some playerNumber) now] }
        (some (state5, some true), { s with gameStates := mapSet s.gameStates roomId state5 })
      else
        let otherAnswered :=
          if playerNumber = 1 then state3.player2Answered else state3.player1Answered
        if otherAnswered then
          let state4 := { state3 with problemSolved := true,
                                      solvedBy := none,
                                      history := state3.history ++
                                        [histEntryOf state3 none now] }
          (some (state4, some false), { s with gameStates := mapSet s.gameStates roomId state4 })
        else
          (some (state3, some false), { s with gameStates := mapSet s.gameStates roomId state3 })

/-- Core of `nextRound` acting on a game state, with the refreshed
`playersConnected` value passed in: remove the selected card from each
hand (filter by id), recompute `gameOver`/`winner`, reset every
per-round field, set the client control flags. -/
def nextRoundCore (state0 : GameState) (pc : Nat) : GameState :=
  let state1 :=
    match state0.player1SelectedCard with
    | some sel =>
      { state0 with player1Hand := state0.player1Hand.filter (fun c => ¬ c.id = sel.id) }
    | none => state0
  let state2 :=
    match state1.player2SelectedCard with
    | some sel =>
      { state1 with player2Hand := state1.player2Hand.filter (fun c => ¬ c.id = sel.id) }
    | none => state1
  let gameOver := state2.player1Hand.length = 0 ∨ state2.player2Hand.length = 0
  let state3 := { state2 with gameOver := gameOver }
  let state4 :=
    if gameOver then
      if state3.player2Score < state3.player1Score then { state3 with winner := some "player1" }
      else if state3.player1Score < state3.player2Score then
        { state3 with winner := some "player2" }
      else { state3 with winner := none }
    else state3
  { state4 with player1SelectedCard := none,
                player2SelectedCard := none,
                player1Answered := false,
                player2Answered := false,
                submittedAnswers1 := none,
                submittedAnswers2 := none,
                currentProblem := none,
                answerOptions := [],
                correctAnswer := 0,
                problemSolved := false,
                solvedBy := none,
                roundInProgress := false,
                revealEquation := false,
                dealComplete := true,
                advanceClients := true,
                playersConnected := pc }

/-- `nextRound(roomId)`: advance the round on the stored state. -/
def nextRound (s : RMState) (roomId : String) : Option GameState × RMState :=
  match mapGet s.gameStates roomId with
  | none => (none, s)
  | some state0 =>
    let state := nextRoundCore state0 (playersConnectedOf s roomId)
    (some state, { s with gameStates := mapSet s.gameStates roomId state })

/-- `resetGameState(roomId)`: drop the stored state, re-deal via
`initGameState` (no options argument), and force the fresh-deal control
flags on the result. -/
def resetGameState (s : RMState) (roomId : String) (rand : Nat → Nat) :
    Option GameState × RMState :=
  let s1 : RMState := { s with gameStates := mapDelete s.gameStates roomId }
  match initGameState s1 roomId { difficulty := none, initialCards := none } rand with
  | (none, s2) => (none, s2)
  | (some st, s2) =>
    let st1 := { st with dealComplete := false, advanceClients := false }
    (some st1, { s2 with gameStates := mapSet s2.gameStates roomId st1 })

/-- `leaveRoomBySocket(socketId)`: the first room (in map iteration
order) containing the socket loses that player; an emptied room and its
game state are deleted immediately, otherwise `lastEmptyAt` is cleared.
Returns `(roomId, deleted, remaining)` and the new state. -/
def leaveRoomBySocket (s : RMState) (socketId : String) :
    Option (String × Bool × Nat) × RMState :=
  match s.rooms.find? (fun p => mapHas p.2.players socketId) with
  | none => (none, s)
  | some (roomId, room) =>
    let marked := room.players.map
      (fun q => if q.1 == socketId then (q.1, { q.2 with status := "left" }) else q)
    let remainingPlayers := mapDelete marked socketId
    let remaining := remainingPlayers.length
    if remaining = 0 then
      (some (roomId, true, 0),
        { s with rooms := mapDelete s.rooms roomId,
                 gameStates := mapDelete s.gameStates roomId })
    else
      let room1 := { room with players := remainingPlayers, lastEmptyAt := none }
      (some (roomId, false, remaining), { s with rooms := mapSet s.rooms roomId room1 })

/-- `setPlayerStatus(roomId, socketId, status)`. -/
def setPlayerStatus (s : RMState) (roomId socketId status : String) : Bool × RMState :=
  match mapGet s.rooms roomId with
  | none => (false, s)
  | some room =>
    if mapHas room.players socketId then
      let players1 := room.players.map
        (fun q => if q.1 == socketId then (q.1, { q.2 with status := status }) else q)
      (true, { s with rooms := mapSet s.rooms roomId { room with players := players1 } })
    else (false, s)

/-- Removal condition of `garbageCollectRooms`: the room is empty, its
`lastEmptyAt` marker is set (truthy), and the TTL has elapsed
(`now - lastEmptyAt > roomTTLMs`). -/
def gcCond (now : Nat) (p : String × Room) : Bool :=
  decide (p.2.players.length = 0) &&
    (match p.2.lastEmptyAt with
     | some t => decide ((roomTTLMs : Int) < (now : Int) - (t : Int))
     | none => false)

/-- `garbageCollectRooms()`: delete every room matching `gcCond`
together with its game state and return the removed room ids. -/
def garbageCollectRooms (s : RMState) (now : Nat) : List String × RMState :=
  let removed := (s.rooms.filter (gcCond now)).map (fun p => p.1)
  (removed,
    { s with rooms := s.rooms.filter (fun p => ¬ gcCond now p),
             gameStates := removed.foldl mapDelete s.gameStates })

/-- The socket-server layer state of `index.js`: the `RoomManager`, the
per-room rematch request sets (`Map<roomId, Set<playerNumber>>`,
insertion-ordered and deduplicated), and the set of rooms with a pending
auto-next-round timer (`nextRoundTimers`). -/
structure ServerState where
  rm : RMState
  rematchRequests : JsMap (List Nat)
  nextRoundTimers : List String
deriving Repr

/-- Helper: flip a room's `transitioning` flag if the room exists. -/
def setTransitioning (s : RMState) (roomId : String) (b : Bool) : RMState :=
  match mapGet s.rooms roomId with
  | none => s
  | some room => { s with rooms := mapSet s.rooms roomId { room with transitioning := b } }

/-- `scheduleAutoNextRound(roomId)`: no-op when a timer is already
pending, otherwise mark the room `transitioning` and record the timer. -/
def scheduleAutoNextRound (s : ServerState) (roomId : String) : ServerState :=
  if roomId ∈ s.nextRoundTimers then s
  else { s with rm := setTransitioning s.rm roomId true,
                nextRoundTimers := roomId :: s.nextRoundTimers }

/-- `clearAutoNextRound(roomId)`: if a timer is pending, cancel it and
clear the `transitioning` flag. -/
def clearAutoNextRound (s : ServerState) (roomId : String) : ServerState :=
  if roomId ∈ s.nextRoundTimers then
    { s with rm := setTransitioning s.rm roomId false,
             nextRoundTimers := s.nextRoundTimers.filter (fun r => ¬ r == roomId) }
  else s

/-- Firing of a scheduled auto-next timer (the `setTimeout` body in
`scheduleAutoNextRound`).  It can only run while the timer is still
pending (`clearTimeout` prevents a cancelled timer from firing).  The
body re-checks that the room exists, advances the round, and the
`finally` block clears `transitioning` and discards the timer handle.
The payload tweaks (`advanceClients`, `dealComplete`) re-assign values
the advanced state already has, so they are not separate mutations. -/
def autoNextRoundFire (s : ServerState) (roomId : String) : ServerState :=
  if roomId ∈ s.nextRoundTimers then
    let rm1 :=
      match mapGet s.rm.rooms roomId with
      | none => s.rm
      | some _ => (nextRound s.rm roomId).2
    { s with rm := setTransitioning rm1 roomId false,
             nextRoundTimers := s.nextRoundTimers.filter (fun r => ¬ r == roomId) }
  else s

/-- The `gameSync` handler for `type: 'nextRound'`: after the handler's
room-existence check, cancel any pending auto-next timer, then advance
the round.  The payload tweaks re-assign values the advanced state
already carries. -/
def handleNextRound (s : ServerState) (roomId : String) : ServerState :=
  match mapGet s.rm.rooms roomId with
  | none => s
  | some _ =>
    let s1 := clearAutoNextRound s roomId
    { s1 with rm := (nextRound s1.rm roomId).2 }

/-- The `gameSync` handler for `type: 'resetGame'`: after the handler's
room-existence check, reset the game state; if the reset produced a
state, pending rematch requests for the room are cleared. -/
def handleResetGame (s : ServerState) (roomId : String) (rand : Nat → Nat) : ServerState :=
  match mapGet s.rm.rooms roomId with
  | none => s
  | some _ =>
    match resetGameState s.rm roomId rand with
    | (none, rm1) => { s with rm := rm1 }
    | (some _, rm1) =>
      { s with rm := rm1, rematchRequests := mapDelete s.rematchRequests roomId }

/-- `requestRematch(roomId, playerNumber)`: record the request; once the
set holds two players, re-deal with the room's stored options, force the
fresh-deal flags on the stored state, and clear the set.  Otherwise the
set stays pending. -/
def handleRequestRematch (s : ServerState) (roomId : String) (playerNumber : Nat)
    (rand : Nat → Nat) : ServerState :=
  match mapGet s.rm.rooms roomId with
  | none => s
  | some room =>
    let requests0 := (mapGet s.rematchRequests roomId).getD []
    let requests := if playerNumber ∈ requests0 then requests0 else requests0 ++ [playerNumber]
    let s1 := { s with rematchRequests := mapSet s.rematchRequests roomId requests }
    if 2 ≤ requests.length then
      let difficulty := jsOrStr room.difficulty (some "easy")
      let initialCards := (jsOrNat room.initialCards (some 6)).getD 6
      match initGameState s1.rm roomId
        { difficulty := difficulty, initialCards := some initialCards } rand with
      | (none, rm1) => { s1 with rm := rm1 }
      | (some st, rm1) =>
        let st1 := { st with advanceClients := false, dealComplete := false }
        { s1 with rm := { rm1 with gameStates := mapSet rm1.gameStates roomId st1 },
                  rematchRequests := mapDelete s1.rematchRequests roomId }
    else s1

/-- `startGame` handler: the requesting socket must be player 1 of an
existing room with two members; then the authoritative state is
initialized with the resolved options and the fresh-deal flags are
forced on the stored state.  `difficulty?`/`initialCards?` stand for the
values resolved from the payload synonym fields (`pickNumber` only
accepts positive numbers, so a provided value is nonzero).  Rematch
requests are left untouched. -/
def handleStartGame (s : ServerState) (roomId socketId : String)
    (difficultyOpt : Option String) (initialCardsOpt : Option Nat) (rand : Nat → Nat) :
    ServerState :=
  match mapGet s.rm.rooms roomId with
  | none => s
  | some room =>
    match mapGet room.players socketId with
    | none => s
    | some player =>
      if ¬ player.playerNumber = 1 then s
      else
        let difficulty := (jsOrStr difficultyOpt (jsOrStr room.difficulty (some "easy"))).getD "easy"
        let initialCards := jsOrNat initialCardsOpt room.initialCards
        if room.players.length < 2 then s
        else
          match initGameState s.rm roomId
            { difficulty := some difficulty, initialCards := initialCards } rand with
          | (none, rm1) => { s with rm := rm1 }
          | (some st, rm1) =>
            let st1 := { st with advanceClients := false, dealComplete := false }
            { s with rm := { rm1 with gameStates := mapSet rm1.gameStates roomId st1 } }

/-- One mutating `RoomManager` call, the randomness it consumes included
as data (the generated identifiers and random draws are adversarially
chosen parameters, so reachability quantifies over every outcome of
`Math.random`). -/
inductive RMOp where
  | create (roomId roomName playerId socketId : String) (now : Nat)
  | join (roomId playerId socketId : String) (now : Nat)
  | leave (socketId : String)
  | setStatus (roomId socketId status : String)
  | setTrans (roomId : String) (b : Bool)
  | initGame (roomId : String) (opts : GameOptions) (rand : Nat → Nat)
  | select (roomId : String) (playerNumber : Nat) (cardId : String × Nat × Nat) (rng : SelectRng)
  | submit (roomId : String) (playerNumber : Nat) (answer : Int) (now : Nat)
  | advance (roomId : String)
  | reset (roomId : String) (rand : Nat → Nat)
  | sweep (now : Nat)

/-- Effect of one `RoomManager` call on the registry state
(acknowledgement values are dropped). -/
def applyRMOp (s : RMState) : RMOp → RMState
  | RMOp.create roomId roomName playerId socketId now =>
    createRoom s roomId roomName playerId socketId now
  | RMOp.join roomId playerId socketId now => joinRoom s roomId playerId socketId now
  | RMOp.leave socketId => (leaveRoomBySocket s socketId).2
  | RMOp.setStatus roomId socketId status => (setPlayerStatus s roomId socketId status).2
  | RMOp.setTrans roomId b => setTransitioning s roomId b
  | RMOp.initGame roomId opts rand => (initGameState s roomId opts rand).2
  | RMOp.select roomId playerNumber cardId rng =>
    (playerSelectCard s roomId playerNumber cardId rng).2
  | RMOp.submit roomId playerNumber answer now =>
    (playerSubmitAnswer s roomId playerNumber answer now).2
  | RMOp.advance roomId => (nextRound s roomId).2
  | RMOp.reset roomId rand => (resetGameState s roomId rand).2
  | RMOp.sweep now => (garbageCollectRooms s now).2

/-- The registry of a freshly started process: no rooms, no game states. -/
def initialRM : RMState := { rooms := [], gameStates := [] }

/-- State reached by a sequence of `RoomManager` calls. -/
def runRMOps (ops : List RMOp) : RMState :=
  ops.foldl applyRMOp initialRM

/-- Well-formedness of a single room: at most two members, every
member's player number is 1 or 2, and no `lastEmptyAt` marker. -/
def WFRoom (r : Room) : Prop :=
  r.players.length ≤ 2 ∧
    (∀ q ∈ r.players, q.2.playerNumber = 1 ∨ q.2.playerNumber = 2) ∧
    r.lastEmptyAt = none

/-- Registry invariant that actually holds: every room is well-formed. -/
def RoomsWF (s : RMState) : Prop :=
  ∀ p ∈ s.rooms, WFRoom p.2

/-- Concrete three-of-hearts used in witness scenarios. -/
def cardH3 : Card := { id := ("hearts", 3, 1), value := 3, suit := "hearts" }

/-- Concrete four-of-clubs used in witness scenarios. -/
def cardC4 : Card := { id := ("clubs", 4, 26), value := 4, suit := "clubs" }

/-- Concrete mid-round game state used in witness scenarios: both cards
selected, problem `3 * 4` active and unsolved. -/
def stW : GameState :=
  { difficulty := "test", initialCards := 1,
    player1Hand := [cardH3], player2Hand := [cardC4],
    player1SelectedCard := some cardH3, player2SelectedCard := some cardC4,
    submittedAnswers1 := none, submittedAnswers2 := none,
    player1Answered := false, player2Answered := false,
    player1Score := 0, player2Score := 0,
    currentProblem := some (3, 4), answerOptions := [12, 13, 14, 15], correctAnswer := 12,
    gameOver := false, winner := none, problemSolved := false, solvedBy := none,
    roundInProgress := true, playersConnected := 2, revealEquation := true,
    history := [], dealComplete := true, advanceClients := false }

/-- Concrete two-member room used in witness scenarios. -/
def roomW : Room :=
  { roomId := "ROOMA1", name := "happy-fox",
    players :=
      [("s1", { playerId := "player_aaaa1111", playerNumber := 1, socketId := "s1",
                status := "in-game" }),
       ("s2", { playerId := "player_bbbb2222", playerNumber := 2, socketId := "s2",
                status := "in-game" })],
    createdAt := 0, lastActivity := 0, difficulty := some "test", initialCards := some 1,
    lastEmptyAt := none, transitioning := false }

/-- Concrete registry used in witness scenarios. -/
def rmW : RMState :=
  { rooms := [("ROOMA1", roomW)], gameStates := [("ROOMA1", stW)] }

/-- Cumulative score of a player (`player1Score`/`player2Score`). -/
def scoreOf (pn : Nat) (st : GameState) : Nat :=
  if pn = 1 then st.player1Score else st.player2Score

/-- Answered-this-round flag of a player. -/
def answeredOf (pn : Nat) (st : GameState) : Bool :=
  if pn = 1 then st.player1Answered else st.player2Answered

/-- Recorded submitted answer of a player. -/
def submittedOf (pn : Nat) (st : GameState) : Option Int :=
  if pn = 1 then st.submittedAnswers1 else st.submittedAnswers2

/-- The opponent's player number. -/
def otherOf (pn : Nat) : Nat :=
  if pn = 1 then 2 else 1


/-- Variant of `stW` in which player 1 has already answered (wrongly). -/
def stWA : GameState :=
  { stW with player1Answered := true, submittedAnswers1 := some 7 }

/-- Registry holding `stWA`. -/
def rmWA : RMState :=
  { rooms := [("ROOMA1", roomW)], gameStates := [("ROOMA1", stWA)] }

/-- Room with a single member and a pending transition, used to exhibit
the `playersConnected` refresh of `playerSelectCard`. -/
def roomT : Room :=
  { roomId := "ROOMB2", name := "tiny-owl",
    players :=
      [("s9", { playerId := "player_cccc3333", playerNumber := 2, socketId := "s9",
                status := "in-game" })],
    createdAt := 0, lastActivity := 0, difficulty := some "easy", initialCards := some 6,
    lastEmptyAt := none, transitioning := true }

/-- Game state whose stale `playersConnected = 2` disagrees with
`roomT`'s single member. -/
def stPC2 : GameState :=
  { stW with playersConnected := 2 }

/-- Registry pairing `roomT` with `stPC2`. -/
def rmT : RMState :=
  { rooms := [("ROOMB2", roomT)], gameStates := [("ROOMB2", stPC2)] }

/-- Game state in which only player 1 has selected, used for the
problem-generation witness (player 2's hand still holds `cardC4`). -/
def stSel : GameState :=
  { stW with player2SelectedCard := none, currentProblem := none, answerOptions := [],
             correctAnswer := 0, roundInProgress := false, revealEquation := false }

/-- Registry holding `stSel` (room not transitioning). -/
def rmSel : RMState :=
  { rooms := [("ROOMA1", roomW)], gameStates := [("ROOMA1", stSel)] }

/-- Deterministic draw stream and identity shuffle for witnesses. -/
def rngA : SelectRng :=
  { draws := [(0, true), (1, true), (2, true)], shuffle := fun l => l }

/-- Same draws as `rngA` but reversing shuffle. -/
def rngB : SelectRng :=
  { draws := [(0, true), (1, true), (2, true)], shuffle := fun l => l.reverse }

/-- Server state with a pending auto-next timer for `ROOMA1`. -/
def srvW : ServerState :=
  { rm := rmW, rematchRequests := [], nextRoundTimers := ["ROOMA1"] }

/-- Server state with a pending rematch request from player 1 only. -/
def srvR : ServerState :=
  { rm := rmW, rematchRequests := [("ROOMA1", [1])], nextRoundTimers := [] }

/-- Single-create operation trace used as a reachability witness. -/
def opsC5w : List RMOp :=
  [RMOp.create "ABC123" "happy-fox" "player_a1" "s1" 0]

/-- The room produced by the trace `opsC5w`. -/
def roomC5w : Room :=
  { roomId := "ABC123", name := "happy-fox",
    players := [("s1", { playerId := "player_a1", playerNumber := 1, socketId := "s1",
                         status := "lobby" })],
    createdAt := 0, lastActivity := 0, difficulty := none, initialCards := none,
    lastEmptyAt := none, transitioning := false }

/-- Trace in which player 1 creates, player 2 joins, player 1 leaves,
and a third connection joins the half-empty room. -/
def opsC5cx : List RMOp :=
  [RMOp.create "ABC123" "happy-fox" "player_a1" "s1" 0,
   RMOp.join "ABC123" "player_b2" "s2" 1,
   RMOp.leave "s1",
   RMOp.join "ABC123" "player_c3" "s3" 2]

theorem mapSet_cons_ne {α : Type} (a : String × α) (m : JsMap α) (k : String) (v : α)
    (h : (a.1 == k) = false) : mapSet (a :: m) k v = a :: mapSet m k v := by
  simp only [mapSet, List.any_cons, h, Bool.false_or, List.map_cons, List.cons_append]
  split <;> simp [h]

theorem mapGet_nil {α : Type} (k : String) : mapGet ([] : JsMap α) k = none := rfl

theorem mapGet_cons {α : Type} (a : String × α) (m : JsMap α) (k : String) :
    mapGet (a :: m) k = if a.1 == k then some a.2 else mapGet m k := by
  simp only [mapGet, List.find?]
  by_cases h : a.1 == k <;> simp [h]

theorem mapGet_mapSet_self {α : Type} (m : JsMap α) (k : String) (v : α) :
    mapGet (mapSet m k v) k = some v := by
  induction m with
  | nil => simp [mapSet, mapGet, List.find?]
  | cons a m ih =>
    by_cases h : a.1 == k
    · have hany : (a :: m).any (fun p => p.1 == k) = true := by simp [List.any_cons, h]
      simp only [mapSet, hany, if_true, List.map_cons, h, if_pos]
      simp [mapGet_cons]
    · rw [mapSet_cons_ne a m k v (by simpa using h)]
      rw [mapGet_cons]
      simp only [h, if_false]
      exact ih

theorem mapGet_overwriteMap {α : Type} (m : JsMap α) (k kq : String) (v : α) (h : ¬ kq = k) :
    mapGet (m.map (fun p => if p.1 == k then (k, v) else p)) kq = mapGet m kq := by
  induction m with
  | nil => rfl
  | cons a m ih =>
    by_cases h1 : (a.1 == k) = true
    · have ha : a.1 = k := by simpa using h1
      have hk : (k == kq) = false := by
        simp only [beq_eq_false_iff_ne, ne_eq]
        exact fun hkq => h hkq.symm
      have hk2 : (a.1 == kq) = false := by rw [ha]; exact hk
      simp only [List.map_cons, h1, if_true, mapGet_cons, hk, hk2, Bool.false_eq_true,
        if_false]
      exact ih
    · have hf : (a.1 == k) = false := by simpa using h1
      simp only [List.map_cons, hf, Bool.false_eq_true, if_false, mapGet_cons]
      by_cases h2 : (a.1 == kq) = true
      · simp [h2]
      · have hf2 : (a.1 == kq) = false := by simpa using h2
        simp only [hf2, Bool.false_eq_true, if_false]
        exact ih

theorem mapGet_mapSet_ne {α : Type} (m : JsMap α) (k kq : String) (v : α) (h : ¬ kq = k) :
    mapGet (mapSet m k v) kq = mapGet m kq := by
  induction m with
  | nil =>
    have hk : (k == kq) = false := by
      simp only [beq_eq_false_iff_ne, ne_eq]
      exact fun hkq => h hkq.symm
    simp [mapSet, mapGet, List.find?, hk]
  | cons a m ih =>
    by_cases h1 : a.1 == k
    · have hany : (a :: m).any (fun p => p.1 == k) = true := by simp [List.any_cons, h1]
      simp only [mapSet, hany, if_true]
      exact mapGet_overwriteMap (a :: m) k kq v h
    · rw [mapSet_cons_ne a m k v (by simpa using h1)]
      rw [mapGet_cons, mapGet_cons]
      by_cases h2 : a.1 == kq
      · simp [h2]
      · simp only [h2, if_false]
        exact ih

theorem find?_filter_none {α : Type} (l : List α) (p q : α → Bool)
    (h : ∀ x, q x = true → p x = false) : (l.filter q).find? p = none := by
  induction l with
  | nil => rfl
  | cons a l ih =>
    by_cases hq : q a = true
    · simp only [List.filter_cons, hq, if_true, List.find?, h a hq]
      exact ih
    · have hqf : q a = false := by simpa using hq
      simp only [List.filter_cons, hqf, Bool.false_eq_true, if_false]
      exact ih

theorem mapGet_mapDelete_self {α : Type} (m : JsMap α) (k : String) :
    mapGet (mapDelete m k) k = none := by
  unfold mapGet mapDelete
  rw [find?_filter_none]
  · rfl
  · intro x hx
    simp only [decide_eq_true_eq] at hx
    simp only [beq_eq_false_iff_ne, ne_eq]
    simpa using hx

theorem mem_mapSet {α : Type} {m : JsMap α} {k : String} {v : α} {p : String × α}
    (hp : p ∈ mapSet m k v) : p ∈ m ∨ p = (k, v) := by
  simp only [mapSet] at hp
  split at hp
  · rcases List.mem_map.mp hp with ⟨q, hq, hfq⟩
    by_cases h : q.1 == k
    · right
      simp only [h, if_true] at hfq
      exact hfq.symm
    · left
      simp only [h, if_false] at hfq
      exact hfq ▸ hq
  · rcases List.mem_append.mp hp with h | h
    · exact Or.inl h
    · right
      simpa using h

theorem length_mapSet {α : Type} (m : JsMap α) (k : String) (v : α) :
    (mapSet m k v).length = m.length ∨ (mapSet m k v).length = m.length + 1 := by
  simp only [mapSet]
  split
  · left; simp
  · right; simp

theorem mem_mapDelete {α : Type} {m : JsMap α} {k : String} {p : String × α}
    (hp : p ∈ mapDelete m k) : p ∈ m :=
  List.mem_of_mem_filter hp

theorem length_mapDelete_le {α : Type} (m : JsMap α) (k : String) :
    (mapDelete m k).length ≤ m.length :=
  List.length_filter_le _ m

theorem cons_set_perm {α : Type} (xs : List α) (m : Nat) (x b : α)
    (hb : xs.get? m = some b) : (b :: xs.set m x).Perm (x :: xs) := by
  induction xs generalizing m with
  | nil => simp at hb
  | cons y ys ih =>
    cases m with
    | zero =>
      have hy : y = b := by simpa using hb
      simp only [List.set_cons_zero]
      rw [hy]
      exact List.Perm.swap x b ys
    | succ m =>
      have hb2 : ys.get? m = some b := by simpa using hb
      simp only [List.set_cons_succ]
      exact ((List.Perm.swap _ _ _).trans ((ih m hb2).cons y)).trans (List.Perm.swap _ _ _)

theorem set_set_perm {α : Type} (l : List α) {i j : Nat} {a b : α}
    (ha : l.get? i = some a) (hb : l.get? j = some b) : ((l.set i b).set j a).Perm l := by
  induction l generalizing i j with
  | nil => simp at ha
  | cons z zs ih =>
    cases i with
    | zero =>
      have hz : z = a := by simpa using ha
      cases j with
      | zero =>
        simp only [List.set_cons_zero]
        rw [hz]
      | succ j =>
        have hb2 : zs.get? j = some b := by simpa using hb
        simp only [List.set_cons_zero, List.set_cons_succ]
        rw [hz]
        exact cons_set_perm zs j a b hb2
    | succ i =>
      have ha2 : zs.get? i = some a := by simpa using ha
      cases j with
      | zero =>
        have hz : z = b := by simpa using hb
        simp only [List.set_cons_succ, List.set_cons_zero]
        rw [hz]
        exact cons_set_perm zs i b a ha2
      | succ j =>
        have hb2 : zs.get? j = some b := by simpa using hb
        simp only [List.set_cons_succ]
        exact (ih ha2 hb2).cons z

theorem swapCards_perm {α : Type} (l : List α) (i j : Nat) : (swapCards l i j).Perm l := by
  unfold swapCards
  split
  · rename_i a b ha hb
    exact set_set_perm l ha hb
  · exact List.Perm.refl l

theorem fyAux_perm {α : Type} (rand : Nat → Nat) (l : List α) (i : Nat) :
    (fyAux rand l i).Perm l := by
  induction i generalizing l with
  | zero => exact List.Perm.refl l
  | succ i ih => exact (ih _).trans (swapCards_perm l (i + 1) (rand (i + 1) % (i + 2)))

theorem fyShuffle_perm {α : Type} (rand : Nat → Nat) (l : List α) :
    (fyShuffle rand l).Perm l :=
  fyAux_perm rand l (l.length - 1)

theorem find?_true {α : Type} {f : α → Bool} :
    ∀ {l : List α} {a : α}, l.find? f = some a → f a = true := by
  intro l
  induction l with
  | nil => intro a h; simp at h
  | cons x xs ih =>
    intro a h
    by_cases hx : f x = true
    · simp only [List.find?, hx] at h
      cases h
      exact hx
    · have hxf : f x = false := by simpa using hx
      simp only [List.find?, hxf] at h
      exact ih h

theorem mapGet_mem {α : Type} {m : JsMap α} {k : String} {v : α}
    (h : mapGet m k = some v) : (k, v) ∈ m := by
  unfold mapGet at h
  cases hf : m.find? (fun p => p.1 == k) with
  | none => rw [hf] at h; simp at h
  | some p =>
    rw [hf] at h
    replace h : p.2 = v := by simpa using h
    have hmem : p ∈ m := List.mem_of_find?_eq_some hf
    have hkey := find?_true hf
    have hk : p.1 = k := by simpa using hkey
    have : p = (k, v) := by
      cases p
      simp_all
    exact this ▸ hmem

theorem wfRoom_statusMap (r : Room) (f : Player → String) (hr : WFRoom r)
    (players1 : JsMap Player)
    (hmap : players1 = r.players.map (fun q => (q.1, { q.2 with status := f q.2 }))) :
    WFRoom { r with players := players1 } := by
  obtain ⟨hlen, hnum, hemp⟩ := hr
  subst hmap
  refine ⟨by simpa using hlen, ?_, hemp⟩
  intro q hq
  rcases List.mem_map.mp hq with ⟨q0, hq0, hfq⟩
  have : q.2.playerNumber = q0.2.playerNumber := by
    cases hfq
    rfl
  rw [this]
  exact hnum q0 hq0

theorem wfRoom_condStatusMap (r : Room) (sid st : String) (hr : WFRoom r)
    (players1 : JsMap Player)
    (hmap : players1 = r.players.map
      (fun q => if q.1 == sid then (q.1, { q.2 with status := st }) else q)) :
    WFRoom { r with players := players1 } := by
  obtain ⟨hlen, hnum, hemp⟩ := hr
  subst hmap
  refine ⟨by simpa using hlen, ?_, hemp⟩
  intro q hq
  rcases List.mem_map.mp hq with ⟨q0, hq0, hfq⟩
  have : q.2.playerNumber = q0.2.playerNumber := by
    by_cases hc : (q0.1 == sid) = true
    · rw [hc] at hfq
      simp only [if_true] at hfq
      cases hfq
      rfl
    · have : (q0.1 == sid) = false := by simpa using hc
      rw [this] at hfq
      simp only [Bool.false_eq_true, if_false] at hfq
      cases hfq
      rfl
  rw [this]
  exact hnum q0 hq0

theorem roomsWF_mapSet {s : RMState} (hs : RoomsWF s) {roomId : String} {room : Room}
    (hroom : WFRoom room) (gs : JsMap GameState) :
    RoomsWF { rooms := mapSet s.rooms roomId room, gameStates := gs } := by
  intro p hp
  rcases mem_mapSet hp with h | h
  · exact hs p h
  · rw [h]
    exact hroom

theorem roomsWF_of_rooms_eq {s t : RMState} (h : t.rooms = s.rooms) (hs : RoomsWF s) :
    RoomsWF t := by
  intro p hp
  exact hs p (h ▸ hp)

theorem wfRoom_mapDelete (r : Room) (players1 : JsMap Player) (sid : String)
    (hwf : WFRoom { r with players := players1 }) :
    WFRoom { r with players := mapDelete players1 sid, lastEmptyAt := none } := by
  obtain ⟨hlen, hnum, _⟩ := hwf
  refine ⟨le_trans (length_mapDelete_le _ _) hlen, ?_, rfl⟩
  intro q hq
  exact hnum q (mem_mapDelete hq)

theorem playerSelectCard_rooms (s : RMState) (roomId : String) (pn : Nat)
    (cardId : String × Nat × Nat) (rng : SelectRng) :
    ((playerSelectCard s roomId pn cardId rng).2).rooms = s.rooms := by
  unfold playerSelectCard
  split
  · rfl
  · split
    · rfl
    · rfl

theorem playerSubmitAnswer_rooms (s : RMState) (roomId : String) (pn : Nat) (answer : Int)
    (now : Nat) : ((playerSubmitAnswer s roomId pn answer now).2).rooms = s.rooms := by
  unfold playerSubmitAnswer
  split
  · rfl
  · dsimp only
    split_ifs <;> rfl

theorem nextRound_rooms (s : RMState) (roomId : String) :
    ((nextRound s roomId).2).rooms = s.rooms := by
  unfold nextRound
  split
  · rfl
  · rfl

theorem roomsWF_initGameState (s : RMState) (roomId : String) (opts : GameOptions)
    (rand : Nat → Nat) (hs : RoomsWF s) : RoomsWF ((initGameState s roomId opts rand).2) := by
  unfold initGameState
  cases h : mapGet s.rooms roomId with
  | none => exact hs
  | some room =>
    simp only
    have hroom : WFRoom room := hs (roomId, room) (mapGet_mem h)
    apply roomsWF_mapSet hs
    exact wfRoom_statusMap _ (fun _ => "in-game") ⟨hroom.1, hroom.2.1, hroom.2.2⟩ _ rfl

theorem roomsWF_applyRMOp (s : RMState) (op : RMOp) (hs : RoomsWF s) :
    RoomsWF (applyRMOp s op) := by
  cases op with
  | create roomId roomName playerId socketId now =>
    simp only [applyRMOp, createRoom]
    apply roomsWF_mapSet hs
    refine ⟨by simp, ?_, rfl⟩
    intro q hq
    simp only [List.mem_singleton] at hq
    rw [hq]
    exact Or.inl rfl
  | join roomId playerId socketId now =>
    simp only [applyRMOp, joinRoom]
    cases h : mapGet s.rooms roomId with
    | none => exact hs
    | some room =>
      simp only
      split
      · exact hs
      · rename_i hlt
        have hroom : WFRoom room := hs (roomId, room) (mapGet_mem h)
        apply roomsWF_mapSet hs
        refine ⟨?_, ?_, hroom.2.2⟩
        · rcases length_mapSet room.players socketId
            { playerId := playerId, playerNumber := 2, socketId := socketId,
              status := "lobby" } with hl | hl
          · simp only [hl]
            exact hroom.1
          · simp only [hl]
            omega
        · intro q hq
          rcases mem_mapSet hq with hq1 | hq1
          · exact hroom.2.1 q hq1
          · rw [hq1]
            exact Or.inr rfl
  | leave socketId =>
    simp only [applyRMOp, leaveRoomBySocket]
    cases hf : s.rooms.find? (fun p => mapHas p.2.players socketId) with
    | none => exact hs
    | some q =>
      obtain ⟨roomId, room⟩ := q
      have hroom : WFRoom room := hs (roomId, room) (List.mem_of_find?_eq_some hf)
      simp only
      split
      · intro p hp
        exact hs p (mem_mapDelete hp)
      · apply roomsWF_mapSet hs
        have hmarked := wfRoom_condStatusMap room socketId "left" hroom _ rfl
        exact wfRoom_mapDelete room _ socketId hmarked
  | setStatus roomId socketId status =>
    simp only [applyRMOp, setPlayerStatus]
    cases h : mapGet s.rooms roomId with
    | none => exact hs
    | some room =>
      simp only
      split
      · have hroom : WFRoom room := hs (roomId, room) (mapGet_mem h)
        apply roomsWF_mapSet hs
        exact wfRoom_condStatusMap room socketId status hroom _ rfl
      · exact hs
  | setTrans roomId b =>
    simp only [applyRMOp, setTransitioning]
    cases h : mapGet s.rooms roomId with
    | none => exact hs
    | some room =>
      simp only
      have hroom : WFRoom room := hs (roomId, room) (mapGet_mem h)
      apply roomsWF_mapSet hs
      exact ⟨hroom.1, hroom.2.1, hroom.2.2⟩
  | initGame roomId opts rand =>
    exact roomsWF_initGameState s roomId opts rand hs
  | select roomId pn cardId rng =>
    exact roomsWF_of_rooms_eq (playerSelectCard_rooms s roomId pn cardId rng) hs
  | submit roomId pn answer now =>
    exact roomsWF_of_rooms_eq (playerSubmitAnswer_rooms s roomId pn answer now) hs
  | advance roomId =>
    exact roomsWF_of_rooms_eq (nextRound_rooms s roomId) hs
  | reset roomId rand =>
    simp only [applyRMOp, resetGameState]
    have hs1 : RoomsWF { s with gameStates := mapDelete s.gameStates roomId } :=
      roomsWF_of_rooms_eq rfl hs
    have hinit := roomsWF_initGameState
      { s with gameStates := mapDelete s.gameStates roomId } roomId
      { difficulty := none, initialCards := none } rand hs1
    cases hres : initGameState { s with gameStates := mapDelete s.gameStates roomId } roomId
      { difficulty := none, initialCards := none } rand with
    | mk st? s2 =>
      rw [hres] at hinit
      cases st? with
      | none => simpa using hinit
      | some st =>
        simp only
        exact roomsWF_of_rooms_eq rfl hinit
  | sweep now =>
    simp only [applyRMOp, garbageCollectRooms]
    intro p hp
    exact hs p (List.mem_of_mem_filter hp)

theorem roomsWF_runRMOps (ops : List RMOp) : RoomsWF (runRMOps ops) := by
  unfold runRMOps
  have hinit : RoomsWF initialRM := by
    intro p hp
    simp [initialRM] at hp
  have main : ∀ (ops1 : List RMOp) (t : RMState), RoomsWF t →
      RoomsWF (ops1.foldl applyRMOp t) := by
    intro ops1
    induction ops1 with
    | nil => intro t ht; exact ht
    | cons op ops1 ih => intro t ht; exact ih _ (roomsWF_applyRMOp t op ht)
  exact main ops initialRM hinit

theorem buildOptsAux_nodup (c : Int) (ds : List (Nat × Bool)) (acc : List Int)
    (hacc : acc.Nodup) : (buildOptsAux c ds acc).Nodup := by
  induction ds generalizing acc with
  | nil => exact hacc
  | cons d ds ih =>
    unfold buildOptsAux
    split
    · exact hacc
    · split
      · exact ih acc hacc
      · rename_i hnm
        apply ih
        simp [List.nodup_append, hacc, hnm]

theorem buildOptsAux_mem_acc (c : Int) (ds : List (Nat × Bool)) (acc : List Int)
    (x : Int) (hx : x ∈ acc) : x ∈ buildOptsAux c ds acc := by
  induction ds generalizing acc with
  | nil => exact hx
  | cons d ds ih =>
    unfold buildOptsAux
    split
    · exact hx
    · split
      · exact ih acc hx
      · exact ih _ (List.mem_append.mpr (Or.inl hx))

theorem buildOptsAux_mem_src (c : Int) (ds : List (Nat × Bool)) (acc : List Int)
    (x : Int) (hx : x ∈ buildOptsAux c ds acc) :
    x ∈ acc ∨ ∃ d ∈ ds, x = genWrongValue c d := by
  induction ds generalizing acc with
  | nil => exact Or.inl hx
  | cons d ds ih =>
    unfold buildOptsAux at hx
    split at hx
    · exact Or.inl hx
    · split at hx
      · rcases ih acc hx with h | ⟨d1, hd1, he⟩
        · exact Or.inl h
        · exact Or.inr ⟨d1, List.mem_cons_of_mem d hd1, he⟩
      · rcases ih _ hx with h | ⟨d1, hd1, he⟩
        · rcases List.mem_append.mp h with h1 | h1
          · exact Or.inl h1
          · refine Or.inr ⟨d, List.mem_cons_self d ds, ?_⟩
            simpa using h1
        · exact Or.inr ⟨d1, List.mem_cons_of_mem d hd1, he⟩

theorem buildAnswerOptions_nodup (c : Int) (ds : List (Nat × Bool)) :
    (buildAnswerOptions c ds).Nodup :=
  buildOptsAux_nodup c ds [c] (by simp)

theorem buildAnswerOptions_mem_correct (c : Int) (ds : List (Nat × Bool)) :
    c ∈ buildAnswerOptions c ds :=
  buildOptsAux_mem_acc c ds [c] c (by simp)

theorem buildAnswerOptions_wrong (c : Int) (ds : List (Nat × Bool)) (x : Int)
    (hx : x ∈ buildAnswerOptions c ds) (hne : ¬ x = c) :
    ∃ off : Int, 1 ≤ off ∧ off ≤ 20 ∧ (x = max 1 (c + off) ∨ x = max 1 (c - off)) := by
  rcases buildOptsAux_mem_src c ds [c] x hx with h | ⟨d, _, he⟩
  · simp at h
    exact absurd h hne
  · refine ⟨(d.1 % 20 : Nat) + 1, by omega, ?_, ?_⟩
    · have : (d.1 % 20) < 20 := Nat.mod_lt _ (by omega)
      have h2 : ((d.1 % 20 : Nat) : Int) ≤ 19 := by exact_mod_cast Nat.le_of_lt_succ this
      omega
    · rw [he]
      unfold genWrongValue
      by_cases hb : d.2 = true
      · left
        simp [hb]
      · right
        have : d.2 = false := by simpa using hb
        simp [this]

/-- C1: in a room with an in-progress unsolved round, submitting the
stored correct answer awards exactly +1 to that player, marks the round
solved with that player as solver, appends a history entry, and stores
the returned state; and if both players submit only wrong answers, the
round is marked solved with a null solver, no score changes, and a
null-solver history entry is appended. -/
theorem c1_submit_answer_scoring :
    (∀ (s : RMState) (roomId : String) (st : GameState) (pn now : Nat),
      mapGet s.gameStates roomId = some st →
      st.roundInProgress = true →
      st.problemSolved = false →
      pn = 1 ∨ pn = 2 →
      ((playerSubmitAnswer s roomId pn st.correctAnswer now).1.map (fun r => r.2))
          = some (some true) ∧
      ((playerSubmitAnswer s roomId pn st.correctAnswer now).1.map
          (fun r => scoreOf pn r.1)) = some (scoreOf pn st + 1) ∧
      ((playerSubmitAnswer s roomId pn st.correctAnswer now).1.map
          (fun r => scoreOf (otherOf pn) r.1)) = some (scoreOf (otherOf pn) st) ∧
      ((playerSubmitAnswer s roomId pn st.correctAnswer now).1.map
          (fun r => r.1.problemSolved)) = some true ∧
      ((playerSubmitAnswer s roomId pn st.correctAnswer now).1.map
          (fun r => r.1.solvedBy)) = some (some pn) ∧
      ((playerSubmitAnswer s roomId pn st.correctAnswer now).1.map
          (fun r => r.1.history)) = some (st.history ++ [histEntryOf st (some pn) now]) ∧
      mapGet (playerSubmitAnswer s roomId pn st.correctAnswer now).2.gameStates roomId
          = ((playerSubmitAnswer s roomId pn st.correctAnswer now).1.map (fun r => r.1))) ∧
    (∀ (s : RMState) (roomId : String) (st : GameState) (pn : Nat) (a1 a2 : Int)
        (n1 n2 : Nat),
      mapGet s.gameStates roomId = some st →
      st.roundInProgress = true →
      st.problemSolved = false →
      st.player1Answered = false →
      st.player2Answered = false →
      pn = 1 ∨ pn = 2 →
      ¬ a1 = st.correctAnswer →
      ¬ a2 = st.correctAnswer →
      ((playerSubmitAnswer (playerSubmitAnswer s roomId pn a1 n1).2 roomId (otherOf pn)
          a2 n2).1.map (fun r => r.2)) = some (some false) ∧
      ((playerSubmitAnswer (playerSubmitAnswer s roomId pn a1 n1).2 roomId (otherOf pn)
          a2 n2).1.map (fun r => r.1.problemSolved)) = some true ∧
      ((playerSubmitAnswer (playerSubmitAnswer s roomId pn a1 n1).2 roomId (otherOf pn)
          a2 n2).1.map (fun r => r.1.solvedBy)) = some none ∧
      ((playerSubmitAnswer (playerSubmitAnswer s roomId pn a1 n1).2 roomId (otherOf pn)
          a2 n2).1.map (fun r => r.1.player1Score)) = some st.player1Score ∧
      ((playerSubmitAnswer (playerSubmitAnswer s roomId pn a1 n1).2 roomId (otherOf pn)
          a2 n2).1.map (fun r => r.1.player2Score)) = some st.player2Score ∧
      ((playerSubmitAnswer (playerSubmitAnswer s roomId pn a1 n1).2 roomId (otherOf pn)
          a2 n2).1.map (fun r => r.1.history))
          = some (st.history ++ [histEntryOf st none n2])) := by
  constructor
  · intro s roomId st pn now hst hrip hsol hpn
    refine ⟨?_, ?_, ?_, ?_, ?_, ?_, ?_⟩ <;> rcases hpn with rfl | rfl <;>
      simp [playerSubmitAnswer, hst, hrip, hsol, scoreOf, otherOf, histEntryOf,
        mapGet_mapSet_self, playersConnectedOf]
  · intro s roomId st pn a1 a2 n1 n2 hst hrip hsol ha1 ha2 hpn hw1 hw2
    refine ⟨?_, ?_, ?_, ?_, ?_, ?_⟩ <;> rcases hpn with rfl | rfl <;>
      simp [playerSubmitAnswer, hst, hrip, hsol, ha1, ha2, hw1, hw2, otherOf, histEntryOf,
        mapGet_mapSet_self, playersConnectedOf]

/-- Witness for C1 at a concrete room: player 2 solving `3 * 4 = 12`
gets the point, and two wrong answers (7 then 9) yield a null solver. -/
theorem c1_submit_answer_scoring_witness :
    ((playerSubmitAnswer rmW "ROOMA1" 2 stW.correctAnswer 5).1.map (fun r => r.2))
        = some (some true) ∧
    ((playerSubmitAnswer (playerSubmitAnswer rmW "ROOMA1" 1 7 3).2 "ROOMA1" 2 9 4).1.map
        (fun r => r.1.solvedBy)) = some none :=
  ⟨(c1_submit_answer_scoring.1 rmW "ROOMA1" stW 2 5 rfl rfl rfl (Or.inr rfl)).1,
   (c1_submit_answer_scoring.2 rmW "ROOMA1" stW 1 7 9 3 4 rfl rfl rfl rfl rfl (Or.inl rfl)
     (by decide) (by decide)).2.2.1⟩

/-- C10: a player who has already answered is not locked out — a
repeated submission is accepted and overwrites the recorded answer, and
a repeated correct submission still awards the point and solver; the
guard returns the bare state exactly when no round is in progress or the
round is already solved, and acceptance never depends on the submitting
player's answered flag. -/
theorem c10_resubmission_allowed :
    (∀ (s : RMState) (roomId : String) (st : GameState) (pn : Nat) (answer : Int) (now : Nat),
      mapGet s.gameStates roomId = some st →
      st.roundInProgress = true →
      st.problemSolved = false →
      answeredOf pn st = true →
      pn = 1 ∨ pn = 2 →
      ((playerSubmitAnswer s roomId pn answer now).1.map (fun r => submittedOf pn r.1))
          = some (some answer) ∧
      (answer = st.correctAnswer →
        ((playerSubmitAnswer s roomId pn answer now).1.map (fun r => scoreOf pn r.1))
            = some (scoreOf pn st + 1) ∧
        ((playerSubmitAnswer s roomId pn answer now).1.map (fun r => r.1.solvedBy))
            = some (some pn) ∧
        ((playerSubmitAnswer s roomId pn answer now).1.map (fun r => r.1.problemSolved))
            = some true)) ∧
    (∀ (s : RMState) (roomId : String) (st : GameState) (pn : Nat) (answer : Int) (now : Nat),
      mapGet s.gameStates roomId = some st →
      st.roundInProgress = false ∨ st.problemSolved = true →
      (playerSubmitAnswer s roomId pn answer now).1
          = some ({ st with playersConnected := playersConnectedOf s roomId }, none)) ∧
    (∀ (s : RMState) (roomId : String) (st : GameState) (pn : Nat) (answer : Int) (now : Nat),
      mapGet s.gameStates roomId = some st →
      st.roundInProgress = true →
      st.problemSolved = false →
      pn = 1 ∨ pn = 2 →
      ((playerSubmitAnswer s roomId pn answer now).1.map (fun r => submittedOf pn r.1))
          = some (some answer)) := by
  refine ⟨?_, ?_, ?_⟩
  · intro s roomId st pn answer now hst hrip hsol hans hpn
    constructor
    · rcases hpn with rfl | rfl
      · by_cases hc : answer = st.correctAnswer <;>
          by_cases ho : st.player2Answered = true <;>
            simp [playerSubmitAnswer, hst, hrip, hsol, hc, ho, submittedOf, playersConnectedOf]
      · by_cases hc : answer = st.correctAnswer <;>
          by_cases ho : st.player1Answered = true <;>
            simp [playerSubmitAnswer, hst, hrip, hsol, hc, ho, submittedOf, playersConnectedOf]
    · intro hc
      rcases hpn with rfl | rfl <;>
        refine ⟨?_, ?_, ?_⟩ <;>
          simp [playerSubmitAnswer, hst, hrip, hsol, hc, scoreOf, playersConnectedOf]
  · intro s roomId st pn answer now hst hguard
    rcases hguard with h | h
    · simp [playerSubmitAnswer, hst, h, playersConnectedOf]
    · simp [playerSubmitAnswer, hst, h, playersConnectedOf]
  · intro s roomId st pn answer now hst hrip hsol hpn
    rcases hpn with rfl | rfl
    · by_cases hc : answer = st.correctAnswer <;>
        by_cases ho : st.player2Answered = true <;>
          simp [playerSubmitAnswer, hst, hrip, hsol, hc, ho, submittedOf, playersConnectedOf]
    · by_cases hc : answer = st.correctAnswer <;>
        by_cases ho : st.player1Answered = true <;>
          simp [playerSubmitAnswer, hst, hrip, hsol, hc, ho, submittedOf, playersConnectedOf]

/-- Witness for C10: player 1, who already submitted a wrong answer,
resubmits the correct answer 12 and is recorded and awarded the round. -/
theorem c10_resubmission_allowed_witness :
    ((playerSubmitAnswer rmWA "ROOMA1" 1 12 6).1.map (fun r => submittedOf 1 r.1))
        = some (some 12) ∧
    ((playerSubmitAnswer rmWA "ROOMA1" 1 12 6).1.map (fun r => r.1.solvedBy))
        = some (some 1) :=
  have h := c10_resubmission_allowed.1 rmWA "ROOMA1" stWA 1 12 6 rfl rfl rfl rfl (Or.inl rfl)
  ⟨h.1, (h.2 (by decide)).2.1⟩

theorem filter_ne_id_length (l : List Card) (a : Card)
    (hnd : (l.map (fun c => c.id)).Nodup) (ha : a ∈ l) :
    (l.filter (fun c => ¬ c.id = a.id)).length + 1 = l.length := by
  induction l with
  | nil => simp at ha
  | cons x xs ih =>
    simp only [List.map_cons, List.nodup_cons] at hnd
    by_cases hx : x.id = a.id
    · have hall : xs.filter (fun c => ¬ c.id = a.id) = xs := by
        apply List.filter_eq_self.mpr
        intro c hc
        simp only [decide_eq_true_eq]
        intro hca
        refine hnd.1 (List.mem_map.mpr ⟨c, hc, ?_⟩)
        rw [hca, hx]
      have hhead : (decide (¬ x.id = a.id)) = false := by simp [hx]
      simp only [List.filter_cons, hhead, Bool.false_eq_true, if_false, hall]
      simp
    · have hax : a ∈ xs := by
        rcases List.mem_cons.mp ha with h | h
        · exact absurd (by rw [h]) hx
        · exact h
      have hlen := ih hnd.2 hax
      simp only [List.filter_cons, decide_eq_true_eq]
      simp only [hx, not_false_eq_true]
      simpa using hlen

theorem nextRoundCore_spec (st : GameState) (pc : Nat) (sel1 sel2 : Card)
    (h1 : st.player1SelectedCard = some sel1) (h2 : st.player2SelectedCard = some sel2) :
    (nextRoundCore st pc).player1Hand = st.player1Hand.filter (fun c => ¬ c.id = sel1.id) ∧
    (nextRoundCore st pc).player2Hand = st.player2Hand.filter (fun c => ¬ c.id = sel2.id) ∧
    ((nextRoundCore st pc).gameOver = true ↔
      (nextRoundCore st pc).player1Hand = [] ∨ (nextRoundCore st pc).player2Hand = []) ∧
    ((nextRoundCore st pc).gameOver = true →
      (st.player2Score < st.player1Score → (nextRoundCore st pc).winner = some "player1") ∧
      (st.player1Score < st.player2Score → (nextRoundCore st pc).winner = some "player2") ∧
      (st.player1Score = st.player2Score → (nextRoundCore st pc).winner = none)) := by
  unfold nextRoundCore
  simp only [h1, h2]
  split_ifs <;>
    simp_all [List.length_eq_zero] <;> omega

/-- C2: advancing the round removes exactly the selected card from each
hand (matched by id, nothing else removed, nothing added), sets
`gameOver` iff either hand is empty afterwards, and on game over picks
the winner by strict score comparison with `none` on a tie. -/
theorem c2_advance_round (s : RMState) (roomId : String) (st : GameState) (sel1 sel2 : Card)
    (hst : mapGet s.gameStates roomId = some st)
    (h1 : st.player1SelectedCard = some sel1)
    (h2 : st.player2SelectedCard = some sel2)
    (hnd1 : (st.player1Hand.map (fun c => c.id)).Nodup)
    (hnd2 : (st.player2Hand.map (fun c => c.id)).Nodup)
    (hin1 : sel1 ∈ st.player1Hand)
    (hin2 : sel2 ∈ st.player2Hand) :
    ∃ st1, (nextRound s roomId).1 = some st1 ∧
      mapGet (nextRound s roomId).2.gameStates roomId = some st1 ∧
      st1.player1Hand = st.player1Hand.filter (fun c => ¬ c.id = sel1.id) ∧
      st1.player2Hand = st.player2Hand.filter (fun c => ¬ c.id = sel2.id) ∧
      st1.player1Hand.length + 1 = st.player1Hand.length ∧
      st1.player2Hand.length + 1 = st.player2Hand.length ∧
      (∀ c ∈ st1.player1Hand, c ∈ st.player1Hand ∧ ¬ c.id = sel1.id) ∧
      (∀ c ∈ st.player1Hand, ¬ c.id = sel1.id → c ∈ st1.player1Hand) ∧
      (∀ c ∈ st1.player2Hand, c ∈ st.player2Hand ∧ ¬ c.id = sel2.id) ∧
      (∀ c ∈ st.player2Hand, ¬ c.id = sel2.id → c ∈ st1.player2Hand) ∧
      (st1.gameOver = true ↔ st1.player1Hand = [] ∨ st1.player2Hand = []) ∧
      (st1.gameOver = true →
        (st.player2Score < st.player1Score → st1.winner = some "player1") ∧
        (st.player1Score < st.player2Score → st1.winner = some "player2") ∧
        (st.player1Score = st.player2Score → st1.winner = none)) := by
  obtain ⟨e1, e2, eg, ew⟩ :=
    nextRoundCore_spec st (playersConnectedOf s roomId) sel1 sel2 h1 h2
  refine ⟨nextRoundCore st (playersConnectedOf s roomId), ?_, ?_, e1, e2, ?_, ?_, ?_, ?_,
    ?_, ?_, eg, ew⟩
  · simp [nextRound, hst]
  · simp [nextRound, hst, mapGet_mapSet_self]
  · rw [e1]
    exact filter_ne_id_length _ _ hnd1 hin1
  · rw [e2]
    exact filter_ne_id_length _ _ hnd2 hin2
  · rw [e1]
    intro c hc
    have hm := List.mem_filter.mp hc
    exact ⟨hm.1, by simpa using hm.2⟩
  · rw [e1]
    intro c hc hne
    exact List.mem_filter.mpr ⟨hc, by simpa using hne⟩
  · rw [e2]
    intro c hc
    have hm := List.mem_filter.mp hc
    exact ⟨hm.1, by simpa using hm.2⟩
  · rw [e2]
    intro c hc hne
    exact List.mem_filter.mpr ⟨hc, by simpa using hne⟩

/-- Witness for C2 at the concrete one-card-each state: both hands empty
afterwards, so `gameOver` holds. -/
theorem c2_advance_round_witness :
    ∃ st1, (nextRound rmW "ROOMA1").1 = some st1 ∧
      mapGet (nextRound rmW "ROOMA1").2.gameStates "ROOMA1" = some st1 ∧
      st1.player1Hand = stW.player1Hand.filter (fun c => ¬ c.id = cardH3.id) ∧
      st1.player2Hand = stW.player2Hand.filter (fun c => ¬ c.id = cardC4.id) ∧
      st1.player1Hand.length + 1 = stW.player1Hand.length ∧
      st1.player2Hand.length + 1 = stW.player2Hand.length ∧
      (∀ c ∈ st1.player1Hand, c ∈ stW.player1Hand ∧ ¬ c.id = cardH3.id) ∧
      (∀ c ∈ stW.player1Hand, ¬ c.id = cardH3.id → c ∈ st1.player1Hand) ∧
      (∀ c ∈ st1.player2Hand, c ∈ stW.player2Hand ∧ ¬ c.id = cardC4.id) ∧
      (∀ c ∈ stW.player2Hand, ¬ c.id = cardC4.id → c ∈ st1.player2Hand) ∧
      (st1.gameOver = true ↔ st1.player1Hand = [] ∨ st1.player2Hand = []) ∧
      (st1.gameOver = true →
        (stW.player2Score < stW.player1Score → st1.winner = some "player1") ∧
        (stW.player1Score < stW.player2Score → st1.winner = some "player2") ∧
        (stW.player1Score = stW.player2Score → st1.winner = none)) :=
  c2_advance_round rmW "ROOMA1" stW cardH3 cardC4 rfl rfl rfl (by decide) (by decide)
    (by decide) (by decide)

/-- C3: when the second selection lands (either order), the problem is
the product of the two selected card values, the answer options are the
random-order list of the generated 4-element option set — pairwise
distinct, containing the correct answer, wrong entries being clamped
random offsets in [1, 20] — and the correct answer's position in the
list is not fixed (two admissible randomness outcomes place it at
different positions). -/
theorem c3_problem_generation :
    (∀ (s : RMState) (roomId : String) (st : GameState) (room : Room) (c1 c2 : Card)
        (cardId : String × Nat × Nat) (rng : SelectRng),
      mapGet s.gameStates roomId = some st →
      mapGet s.rooms roomId = some room →
      room.transitioning = false →
      st.player1SelectedCard = some c1 →
      st.player2Hand.find? (fun c => c.id = cardId) = some c2 →
      (buildAnswerOptions ((c1.value : Int) * (c2.value : Int)) rng.draws).length = 4 →
      (∀ l, (rng.shuffle l).Perm l) →
      ((playerSelectCard s roomId 2 cardId rng).1.map (fun t => t.currentProblem))
          = some (some (c1.value, c2.value)) ∧
      ((playerSelectCard s roomId 2 cardId rng).1.map (fun t => t.correctAnswer))
          = some ((c1.value : Int) * (c2.value : Int)) ∧
      ((playerSelectCard s roomId 2 cardId rng).1.map (fun t => t.answerOptions))
          = some (rng.shuffle
              (buildAnswerOptions ((c1.value : Int) * (c2.value : Int)) rng.draws)) ∧
      (rng.shuffle (buildAnswerOptions ((c1.value : Int) * (c2.value : Int))
          rng.draws)).length = 4 ∧
      (rng.shuffle (buildAnswerOptions ((c1.value : Int) * (c2.value : Int))
          rng.draws)).Nodup ∧
      ((c1.value : Int) * (c2.value : Int)) ∈
          rng.shuffle (buildAnswerOptions ((c1.value : Int) * (c2.value : Int)) rng.draws) ∧
      (∀ x ∈ rng.shuffle (buildAnswerOptions ((c1.value : Int) * (c2.value : Int)) rng.draws),
        ¬ x = (c1.value : Int) * (c2.value : Int) →
        ∃ off : Int, 1 ≤ off ∧ off ≤ 20 ∧
          (x = max 1 ((c1.value : Int) * (c2.value : Int) + off) ∨
           x = max 1 ((c1.value : Int) * (c2.value : Int) - off)))) ∧
    (∀ (s : RMState) (roomId : String) (st : GameState) (room : Room) (c1 c2 : Card)
        (cardId : String × Nat × Nat) (rng : SelectRng),
      mapGet s.gameStates roomId = some st →
      mapGet s.rooms roomId = some room →
      room.transitioning = false →
      st.player1Hand.find? (fun c => c.id = cardId) = some c1 →
      st.player2SelectedCard = some c2 →
      ((playerSelectCard s roomId 1 cardId rng).1.map (fun t => t.currentProblem))
          = some (some (c1.value, c2.value)) ∧
      ((playerSelectCard s roomId 1 cardId rng).1.map (fun t => t.correctAnswer))
          = some ((c1.value : Int) * (c2.value : Int)) ∧
      ((playerSelectCard s roomId 1 cardId rng).1.map (fun t => t.answerOptions))
          = some (rng.shuffle
              (buildAnswerOptions ((c1.value : Int) * (c2.value : Int)) rng.draws))) ∧
    (((playerSelectCard rmSel "ROOMA1" 2 cardC4.id rngA).1.map
        (fun t => t.answerOptions.head?)) = some (some 12) ∧
      ((playerSelectCard rmSel "ROOMA1" 2 cardC4.id rngB).1.map
        (fun t => t.answerOptions.head?)) = some (some 15)) := by
  refine ⟨?_, ?_, ?_, ?_⟩
  · intro s roomId st room c1 c2 cardId rng hst hroom htr h1 hf h4 hsh
    have hperm := hsh (buildAnswerOptions ((c1.value : Int) * (c2.value : Int)) rng.draws)
    refine ⟨?_, ?_, ?_, ?_, ?_, ?_, ?_⟩
    · simp [playerSelectCard, hst, hroom, htr, h1, hf, computeProblem]
    · simp [playerSelectCard, hst, hroom, htr, h1, hf, computeProblem]
    · simp [playerSelectCard, hst, hroom, htr, h1, hf, computeProblem]
    · rw [hperm.length_eq]
      exact h4
    · exact hperm.nodup_iff.mpr (buildAnswerOptions_nodup _ _)
    · exact hperm.mem_iff.mpr (buildAnswerOptions_mem_correct _ _)
    · intro x hx hne
      exact buildAnswerOptions_wrong _ _ x (hperm.subset hx) hne
  · intro s roomId st room c1 c2 cardId rng hst hroom htr hf h2
    refine ⟨?_, ?_, ?_⟩ <;>
      simp [playerSelectCard, hst, hroom, htr, hf, h2, computeProblem]
  · decide
  · decide

/-- Witness for C3: concrete selections with values 3 and 4 produce the
problem `(3, 4)` with correct answer 12. -/
theorem c3_problem_generation_witness :
    ((playerSelectCard rmSel "ROOMA1" 2 cardC4.id rngA).1.map (fun t => t.correctAnswer))
        = some 12 ∧
    ((playerSelectCard rmW "ROOMA1" 1 cardH3.id rngA).1.map (fun t => t.currentProblem))
        = some (some (3, 4)) :=
  ⟨(c3_problem_generation.1 rmSel "ROOMA1" stSel roomW cardH3 cardC4 cardC4.id rngA rfl rfl
      rfl rfl (by decide) (by decide) (fun l => List.Perm.refl l)).2.1,
   (c3_problem_generation.2.1 rmW "ROOMA1" stW roomW cardH3 cardC4 cardH3.id rngA rfl rfl rfl
      (by decide) rfl).1⟩

theorem allCards_facts :
    allCards.length = 44 ∧ (allCards.map (fun c => c.id)).Nodup ∧
      (∀ c ∈ allCards, 2 ≤ c.value ∧ c.value ≤ 12) ∧
      (allCards.map (fun c => (c.suit, c.value))).Nodup ∧
      (∀ c ∈ allCards, c.suit ∈ suits ∧ 2 ≤ c.value ∧ c.value ≤ 12) := by
  refine ⟨by decide, by decide, by decide, by decide, by decide⟩

set_option maxHeartbeats 1000000 in
/-- C4: dealing with effective hand size `n` (with `2n ≤ 44`) from the
44-card deck fills both hands with exactly `n` cards, all values in
[2, 12], no card id shared between the hands; the deck itself has 44
cards with distinct ids and exactly one card per suit/value pair. -/
theorem c4_initial_deal (s : RMState) (roomId : String) (opts : GameOptions) (room : Room)
    (rand : Nat → Nat)
    (hroom : mapGet s.rooms roomId = some room)
    (hn : 2 * effInitialCards opts room ≤ 44) :
    ∃ st, (initGameState s roomId opts rand).1 = some st ∧
      mapGet (initGameState s roomId opts rand).2.gameStates roomId = some st ∧
      st.player1Hand.length = effInitialCards opts room ∧
      st.player2Hand.length = effInitialCards opts room ∧
      (∀ c ∈ st.player1Hand, 2 ≤ c.value ∧ c.value ≤ 12) ∧
      (∀ c ∈ st.player2Hand, 2 ≤ c.value ∧ c.value ≤ 12) ∧
      (∀ c1 ∈ st.player1Hand, ∀ c2 ∈ st.player2Hand, ¬ c1.id = c2.id) ∧
      allCards.length = 44 ∧
      (allCards.map (fun c => c.id)).Nodup ∧
      (allCards.map (fun c => (c.suit, c.value))).Nodup ∧
      (∀ c ∈ allCards, c.suit ∈ suits ∧ 2 ≤ c.value ∧ c.value ≤ 12) := by
  have hperm : (fyShuffle rand allCards).Perm allCards := fyShuffle_perm rand allCards
  have hlen44 : (fyShuffle rand allCards).length = 44 := by
    rw [hperm.length_eq]
    exact allCards_facts.1
  have hvals : ∀ c ∈ allCards, 2 ≤ c.value ∧ c.value ≤ 12 := allCards_facts.2.2.1
  have hndAll : (allCards.map (fun c => c.id)).Nodup := allCards_facts.2.1
  have hnd := (List.Perm.nodup_iff (List.Perm.map (fun c : Card => c.id) hperm)).mpr hndAll
  have hn44 : effInitialCards opts room ≤ 44 := by omega
  refine ⟨freshGameState (effDifficulty opts room) (effInitialCards opts room)
      ((fyShuffle rand allCards).take (effInitialCards opts room))
      (((fyShuffle rand allCards).drop (effInitialCards opts room)).take
        (effInitialCards opts room)) room.players.length,
    ?_, ?_, ?_, ?_, ?_, ?_, ?_, allCards_facts.1, hndAll, allCards_facts.2.2.2.1,
    allCards_facts.2.2.2.2⟩
  · simp [initGameState, hroom]
  · simp [initGameState, hroom, mapGet_mapSet_self]
  · simp only [freshGameState, List.length_take, hlen44]
    omega
  · simp only [freshGameState, List.length_take, List.length_drop, hlen44]
    omega
  · intro c hc
    simp only [freshGameState] at hc
    exact hvals c (hperm.subset (List.take_subset _ _ hc))
  · intro c hc
    simp only [freshGameState] at hc
    exact hvals c (hperm.subset (List.drop_subset _ _ (List.take_subset _ _ hc)))
  · intro c1 hc1 c2 hc2
    simp only [freshGameState] at hc1 hc2
    intro hid
    have hnd2 := hnd
    rw [show fyShuffle rand allCards
        = (fyShuffle rand allCards).take (effInitialCards opts room)
          ++ (fyShuffle rand allCards).drop (effInitialCards opts room) from
      (List.take_append_drop _ _).symm, List.map_append] at hnd2
    have hm1 : c1.id ∈ ((fyShuffle rand allCards).take (effInitialCards opts room)).map
        (fun c => c.id) := List.mem_map.mpr ⟨c1, hc1, rfl⟩
    have hm2 : c1.id ∈ ((fyShuffle rand allCards).drop (effInitialCards opts room)).map
        (fun c => c.id) := List.mem_map.mpr ⟨c2, List.take_subset _ _ hc2, hid.symm⟩
    exact List.disjoint_of_nodup_append hnd2 hm1 hm2

/-- Witness for C4 with the concrete room `roomW` (effective hand size 1). -/
theorem c4_initial_deal_witness :
    ∃ st, (initGameState rmW "ROOMA1" { difficulty := none, initialCards := none }
        (fun k => k + 3)).1 = some st ∧
      mapGet (initGameState rmW "ROOMA1" { difficulty := none, initialCards := none }
          (fun k => k + 3)).2.gameStates "ROOMA1" = some st ∧
      st.player1Hand.length
          = effInitialCards { difficulty := none, initialCards := none } roomW ∧
      st.player2Hand.length
          = effInitialCards { difficulty := none, initialCards := none } roomW ∧
      (∀ c ∈ st.player1Hand, 2 ≤ c.value ∧ c.value ≤ 12) ∧
      (∀ c ∈ st.player2Hand, 2 ≤ c.value ∧ c.value ≤ 12) ∧
      (∀ c1 ∈ st.player1Hand, ∀ c2 ∈ st.player2Hand, ¬ c1.id = c2.id) ∧
      allCards.length = 44 ∧
      (allCards.map (fun c => c.id)).Nodup ∧
      (allCards.map (fun c => (c.suit, c.value))).Nodup ∧
      (∀ c ∈ allCards, c.suit ∈ suits ∧ 2 ≤ c.value ∧ c.value ≤ 12) :=
  c4_initial_deal rmW "ROOMA1" { difficulty := none, initialCards := none } roomW
    (fun k => k + 3) rfl (by decide)

/-- C5 (amended): in every state reachable by `RoomManager` operations,
every room has between 0 and 2 members and each member's playerNumber
is 1 or 2.  (The original claim's no-duplicates part does not hold.) -/
theorem c5_membership_invariant (ops : List RMOp) :
    ∀ p ∈ (runRMOps ops).rooms, p.2.players.length ≤ 2 ∧
      ∀ q ∈ p.2.players, q.2.playerNumber = 1 ∨ q.2.playerNumber = 2 := by
  intro p hp
  have h := roomsWF_runRMOps ops p hp
  exact ⟨h.1, h.2.1⟩

/-- Witness for the amended C5 on a concrete one-operation trace. -/
theorem c5_membership_invariant_witness :
    ("ABC123", roomC5w).2.players.length ≤ 2 ∧
      ∀ q ∈ ("ABC123", roomC5w).2.players,
        q.2.playerNumber = 1 ∨ q.2.playerNumber = 2 :=
  c5_membership_invariant opsC5w ("ABC123", roomC5w) (by decide)

/-- Counterexample to C5 as stated: after create, join, leave of
player 1 and a second join, the room's members hold playerNumbers
`[2, 2]` — two duplicates of 2 and nobody holding playerNumber 1. -/
theorem c5_membership_counterexample :
    ((runRMOps opsC5cx).rooms.map (fun p => p.2.players.map (fun q => q.2.playerNumber)))
      = [[2, 2]] := by
  decide

/-- C9: in every reachable registry state no room carries a
`lastEmptyAt` marker, so the idle-room sweep removes nothing and leaves
the registry untouched. -/
theorem c9_gc_dead_code (ops : List RMOp) (now : Nat) :
    garbageCollectRooms (runRMOps ops) now = ([], runRMOps ops) ∧
    ∀ p ∈ (runRMOps ops).rooms, p.2.lastEmptyAt = none := by
  have hwf := roomsWF_runRMOps ops
  have hemp : ∀ p ∈ (runRMOps ops).rooms, p.2.lastEmptyAt = none :=
    fun p hp => (hwf p hp).2.2
  have hcond : ∀ p ∈ (runRMOps ops).rooms, gcCond now p = false := by
    intro p hp
    simp [gcCond, hemp p hp]
  refine ⟨?_, hemp⟩
  unfold garbageCollectRooms
  have hfil : (runRMOps ops).rooms.filter (gcCond now) = [] :=
    List.filter_eq_nil_iff.mpr (fun p hp => by simp [hcond p hp])
  have hkeep : (runRMOps ops).rooms.filter (fun p => ¬ gcCond now p) = (runRMOps ops).rooms :=
    List.filter_eq_self.mpr (fun p hp => by simp [hcond p hp])
  rw [hfil, hkeep]
  simp

/-- Witness for C9 on a concrete trace and a far-future sweep time. -/
theorem c9_gc_dead_code_witness :
    garbageCollectRooms (runRMOps opsC5w) 999999999 = ([], runRMOps opsC5w) :=
  (c9_gc_dead_code opsC5w 999999999).1

theorem nextRoundCore_resets (st : GameState) (pc : Nat) :
    (nextRoundCore st pc).player1SelectedCard = none ∧
    (nextRoundCore st pc).player2SelectedCard = none := by
  rcases h1 : st.player1SelectedCard with _ | s1 <;>
    rcases h2 : st.player2SelectedCard with _ | s2 <;>
      unfold nextRoundCore <;> simp only [h1, h2] <;> exact ⟨trivial, trivial⟩

theorem nextRoundCore_hands_of_none (t : GameState) (pc : Nat)
    (h1 : t.player1SelectedCard = none) (h2 : t.player2SelectedCard = none) :
    (nextRoundCore t pc).player1Hand = t.player1Hand ∧
    (nextRoundCore t pc).player2Hand = t.player2Hand := by
  unfold nextRoundCore
  simp only [h1, h2]
  split_ifs <;> exact ⟨rfl, rfl⟩

/-- C6: with an auto-advance timer pending, running the manual
next-round request and the timer in either order leaves exactly the
once-advanced state's hands: the manual request cancels the timer (so a
later firing is a no-op), and a second advance after selections were
cleared removes no card. -/
theorem c6_advance_exactly_once (s : ServerState) (roomId : String) (room : Room)
    (st : GameState)
    (hroom : mapGet s.rm.rooms roomId = some room)
    (hst : mapGet s.rm.gameStates roomId = some st)
    (hpend : roomId ∈ s.nextRoundTimers) :
    mapGet (autoNextRoundFire (handleNextRound s roomId) roomId).rm.gameStates roomId
        = some (nextRoundCore st room.players.length) ∧
    (mapGet (handleNextRound (autoNextRoundFire s roomId) roomId).rm.gameStates
        roomId).map (fun t => t.player1Hand)
        = some ((nextRoundCore st room.players.length).player1Hand) ∧
    (mapGet (handleNextRound (autoNextRoundFire s roomId) roomId).rm.gameStates
        roomId).map (fun t => t.player2Hand)
        = some ((nextRoundCore st room.players.length).player2Hand) := by
  obtain ⟨r1, r2⟩ := nextRoundCore_resets st room.players.length
  obtain ⟨e1, e2⟩ := nextRoundCore_hands_of_none (nextRoundCore st room.players.length)
    room.players.length r1 r2
  refine ⟨?_, ?_, ?_⟩ <;>
    simp [handleNextRound, autoNextRoundFire, clearAutoNextRound, setTransitioning,
      nextRound, playersConnectedOf, hroom, hst, hpend, mapGet_mapSet_self, e1, e2]

/-- Witness for C6 on the concrete room with a pending timer. -/
theorem c6_advance_exactly_once_witness :
    mapGet (autoNextRoundFire (handleNextRound srvW "ROOMA1") "ROOMA1").rm.gameStates
        "ROOMA1" = some (nextRoundCore stW roomW.players.length) ∧
    (mapGet (handleNextRound (autoNextRoundFire srvW "ROOMA1") "ROOMA1").rm.gameStates
        "ROOMA1").map (fun t => t.player1Hand)
        = some ((nextRoundCore stW roomW.players.length).player1Hand) ∧
    (mapGet (handleNextRound (autoNextRoundFire srvW "ROOMA1") "ROOMA1").rm.gameStates
        "ROOMA1").map (fun t => t.player2Hand)
        = some ((nextRoundCore stW roomW.players.length).player2Hand) :=
  c6_advance_exactly_once srvW "ROOMA1" roomW stW rfl rfl (by decide)

/-- C7 (amended): while the room is `transitioning`, `selectCard`
records no selection and generates no problem, and the only change to
the game state is the refresh of `playersConnected` to the room's
current member count; that refreshed state is returned and stored. -/
theorem c7_transitioning_freeze (s : RMState) (roomId : String) (st : GameState)
    (room : Room) (pn : Nat) (cardId : String × Nat × Nat) (rng : SelectRng)
    (hst : mapGet s.gameStates roomId = some st)
    (hroom : mapGet s.rooms roomId = some room)
    (htr : room.transitioning = true) :
    (playerSelectCard s roomId pn cardId rng).1
        = some { st with playersConnected := room.players.length } ∧
    (playerSelectCard s roomId pn cardId rng).2
        = { s with gameStates := mapSet s.gameStates roomId { st with playersConnected := room.players.length } } := by
  constructor <;> simp [playerSelectCard, hst, hroom, htr, playersConnectedOf]

/-- Witness for the amended C7 at a concrete transitioning room. -/
theorem c7_transitioning_freeze_witness :
    (playerSelectCard rmT "ROOMB2" 1 cardH3.id rngA).1
        = some { stPC2 with playersConnected := roomT.players.length } ∧
    (playerSelectCard rmT "ROOMB2" 1 cardH3.id rngA).2
        = { rmT with gameStates := mapSet rmT.gameStates "ROOMB2" { stPC2 with playersConnected := roomT.players.length } } :=
  c7_transitioning_freeze rmT "ROOMB2" stPC2 roomT 1 cardH3.id rngA rfl rfl rfl

/-- Counterexample to C7 as stated: in a transitioning room whose stored
state says `playersConnected = 2` while only one member remains, the
call returns a state that differs from the pre-call state — its
`playersConnected` field was rewritten to 1. -/
theorem c7_transitioning_counterexample :
    ¬ (playerSelectCard rmT "ROOMB2" 1 cardH3.id rngA).1 = some stPC2 ∧
    ((playerSelectCard rmT "ROOMB2" 1 cardH3.id rngA).1.map (fun t => t.playersConnected))
        = some 1 ∧
    stPC2.playersConnected = 2 := by
  refine ⟨by decide, by decide, rfl⟩

/-- C8 (amended): the pending-rematch set is cleared by a both-confirmed
rematch reset and by the explicit reset-game handler; a fresh start via
the start-game action does not clear it. -/
theorem c8_rematch_clear (s : ServerState) (roomId : String) (room : Room) (pn : Nat)
    (rand : Nat → Nat) (requests0 : List Nat)
    (hroom : mapGet s.rm.rooms roomId = some room)
    (hreq : (mapGet s.rematchRequests roomId).getD [] = requests0)
    (h2 : 2 ≤ (if pn ∈ requests0 then requests0 else requests0 ++ [pn]).length) :
    mapGet (handleRequestRematch s roomId pn rand).rematchRequests roomId = none ∧
    mapGet (handleResetGame s roomId rand).rematchRequests roomId = none := by
  constructor
  · simp only [handleRequestRematch, hroom, hreq]
    simp only [if_pos h2]
    simp [initGameState, hroom, mapGet_mapDelete_self]
  · simp [handleResetGame, resetGameState, initGameState, hroom, mapGet_mapDelete_self]

/-- Witness for the amended C8: player 2 confirming the rematch clears
the pending set, and the reset-game handler clears it too. -/
theorem c8_rematch_clear_witness :
    mapGet (handleRequestRematch srvR "ROOMA1" 2 (fun _ => 0)).rematchRequests "ROOMA1"
        = none ∧
    mapGet (handleResetGame srvR "ROOMA1" (fun _ => 0)).rematchRequests "ROOMA1" = none :=
  c8_rematch_clear srvR "ROOMA1" roomW 2 (fun _ => 0) [1] rfl rfl (by decide)

/-- Counterexample to C8 as stated: starting a fresh game through the
start-game action leaves the pending rematch request of player 1 in
place instead of clearing it. -/
theorem c8_rematch_clear_counterexample :
    mapGet (handleStartGame srvR "ROOMA1" "s1" none none (fun _ => 0)).rematchRequests
        "ROOMA1" = some [1] := by
  decide
